import Mathlib

/-!
Shallow embedding of `src/main.py` (PDF-to-PNG batch converter CLI) and
verification of its specification claims.

The embedding models the orchestration contract: paths, the output
directory's file set, the process-wide log, the external PDF decoder and
image encoder as oracles, and the functions `configure_logging`,
`parse_args`, `pdf_to_pngs` and `main`.
-/

namespace PdfToPng

/-! ## Paths

A path is a list of components.  `pathString` renders it the way Python
prints a `Path` (components joined by `/`).  `pathStem` mirrors
`pathlib.PurePath.stem`: the final component without its last suffix,
where a leading dot does not start a suffix.
-/

abbrev Path := List String

/-- Split a character list at every occurrence of `sep` (the pieces do
not contain `sep`; `n` separators give `n+1` pieces). -/
def splitOnChar (sep : Char) : List Char → List (List Char)
  | [] => [[]]
  | c :: rest =>
    if c = sep then [] :: splitOnChar sep rest
    else
      match splitOnChar sep rest with
      | [] => [[c]]
      | h :: t => (c :: h) :: t

def strSplitOn (sep : Char) (s : String) : List String :=
  (splitOnChar sep s.data).map String.mk

def strJoin (sep : Char) (parts : List String) : String :=
  String.mk (List.intercalate [sep] (parts.map String.data))

def pathString (p : Path) : String := strJoin '/' p

def lastComponent (p : Path) : String := p.getLastD ""

def pathStem (base : String) : String :=
  match strSplitOn '.' base with
  | [] => base
  | [_] => base
  | "" :: [_] => base
  | parts =>
    if parts.getLastD "" = "" then base
    else strJoin '.' parts.dropLast

/-! ## Decimal rendering of page indices

`str(i)` in the f-string `f"{pdf_path.stem}_page_{i}.png"` renders `i`
in decimal.  `natRepr` is that rendering; `digitsVal` is its inverse,
used to prove injectivity (distinct page indices give distinct names).
-/

def digitChar (d : Nat) : Char :=
  if d = 0 then '0' else if d = 1 then '1' else if d = 2 then '2'
  else if d = 3 then '3' else if d = 4 then '4' else if d = 5 then '5'
  else if d = 6 then '6' else if d = 7 then '7' else if d = 8 then '8'
  else '9'

def natDigitsAux (fuel : Nat) (n : Nat) : List Char :=
  match fuel with
  | 0 => [digitChar n]
  | fuel + 1 =>
    if n < 10 then [digitChar n]
    else natDigitsAux fuel (n / 10) ++ [digitChar (n % 10)]

def natDigits (n : Nat) : List Char := natDigitsAux n n

def natRepr (n : Nat) : String := String.mk (natDigits n)

def digitVal (c : Char) : Nat :=
  if c = '0' then 0 else if c = '1' then 1 else if c = '2' then 2
  else if c = '3' then 3 else if c = '4' then 4 else if c = '5' then 5
  else if c = '6' then 6 else if c = '7' then 7 else if c = '8' then 8
  else 9

def digitsVal (ds : List Char) : Nat := ds.foldl (fun a c => 10 * a + digitVal c) 0

/-! ## Logging records

Python's `logging` module: a record carries a level and a message (the
timestamp and format are presentation only).  Numeric level values follow
the `logging` module constants.
-/

inductive Level
  | debugLv
  | infoLv
  | warningLv
  | errorLv
  | criticalLv
deriving DecidableEq, Repr

structure LogRecord where
  level : Level
  msg : String
deriving DecidableEq, Repr

/-! ## External collaborators as oracles

`convert_from_path` (pdf2image) either raises one of the three caught
exception kinds or returns the ordered list of page images; for each page
the environment also determines whether `img.save` succeeds (`none`) or
raises an `OSError` with a message (`some msg`).
-/

inductive DecodeError
  | rendererMissing (msg : String)
  | pageCountUnreadable (msg : String)
  | malformedDoc (msg : String)
deriving DecidableEq, Repr

def DecodeError.message : DecodeError → String
  | .rendererMissing m => m
  | .pageCountUnreadable m => m
  | .malformedDoc m => m

inductive DecodeOutcome
  | failure (e : DecodeError)
  | pages (saves : List (Option String))
deriving DecidableEq, Repr

inductive ErrCause
  | decode (e : DecodeError)
  | ioFail (msg : String)
deriving DecidableEq, Repr

/-- The exception `PdfConversionError(msg)` raised with `from e` (the wrapped cause). -/
structure PdfConversionError where
  msg : String
  cause : ErrCause
deriving DecidableEq, Repr

/-! ## Converter state

The state `pdf_to_pngs` reads and mutates: the set of file names present
in the output directory, and the process-wide log.
-/

structure ConvState where
  files : List String
  log : List LogRecord
deriving DecidableEq, Repr

def logAt (lv : Level) (m : String) (st : ConvState) : ConvState :=
  { st with log := st.log ++ [⟨lv, m⟩] }

def addFile (name : String) (files : List String) : List String :=
  if name ∈ files then files else files ++ [name]

/-- Output file name for page `i` (1-based): `f"{stem}_page_{i}.png"`. -/
def pageName (stem : String) (i : Nat) : String :=
  stem ++ "_page_" ++ natRepr i ++ ".png"

/-! ## `pdf_to_pngs` (src/main.py lines 95-129)

The page loop: for each page (1-based), if the output path exists and
`overwrite` is false, log a skip and continue; else attempt the save —
on success record the path and log, on `OSError` log and raise
`PdfConversionError`.
-/

/-- The append to `output_paths` rendered as prepending onto the rest of the
loop's results: the written path is kept exactly when the loop finishes
without raising, and an exception discards no already-performed writes. -/
def consOk (o : Path) :
    Except PdfConversionError (List Path) × ConvState →
      Except PdfConversionError (List Path) × ConvState
  | (.ok paths, st) => (.ok (o :: paths), st)
  | (.error e, st) => (.error e, st)

def savePagesLoop (stem : String) (output_dir : Path) (overwrite : Bool) :
    List (Option String) → Nat → ConvState →
      Except PdfConversionError (List Path) × ConvState
  | [], _, st => (.ok [], st)
  | save :: rest, i, st =>
    let name := pageName stem i
    let outPath : Path := output_dir ++ [name]
    if name ∈ st.files ∧ overwrite = false then
      savePagesLoop stem output_dir overwrite rest (i + 1)
        (logAt .infoLv ("Skipping existing file: " ++ pathString outPath) st)
    else
      match save with
      | none =>
        consOk outPath (savePagesLoop stem output_dir overwrite rest (i + 1)
          (logAt .infoLv ("Saved " ++ pathString outPath)
            { st with files := addFile name st.files }))
      | some e =>
        (.error ⟨"Failed to save " ++ pathString outPath, .ioFail e⟩,
          logAt .errorLv ("Failed to save " ++ pathString outPath ++ ": " ++ e) st)

def pdf_to_pngs (pdf_path : Path) (output_dir : Path) (dec : DecodeOutcome)
    (st : ConvState) (overwrite : Bool) :
    Except PdfConversionError (List Path) × ConvState :=
  match dec with
  | .failure e =>
    (.error ⟨"PDF conversion failed for " ++ pathString pdf_path, .decode e⟩,
      logAt .errorLv
        ("Failed to convert " ++ pathString pdf_path ++ ": " ++ e.message) st)
  | .pages saves =>
    savePagesLoop (pathStem (lastComponent pdf_path)) output_dir overwrite saves 1 st

/-! ## `parse_args` (src/main.py lines 55-92)

argparse with four options.  `choices` membership in argparse is a plain
`in` test on the converted value, hence case-sensitive.  A parse failure
is `SystemExit(2)` (usage error) before any logging or directory work.
-/

def levelChoices : List String := ["DEBUG", "INFO", "WARNING", "ERROR", "CRITICAL"]

structure CliArgs where
  input_dir : Path
  output_dir : Path
  log_level : String
  log_to_console : Bool
deriving DecidableEq, Repr

def pathOfString (s : String) : Path := strSplitOn '/' s

/-- Defaults: `Path(file).parent.parent / "data"` resp. `/ "output"`;
`"<install>"` stands for the resolved installation parent directory. -/
def defaultArgs : CliArgs :=
  { input_dir := ["<install>", "data"]
    output_dir := ["<install>", "output"]
    log_level := "INFO"
    log_to_console := false }

def parseArgsLoop : List String → CliArgs → Except String CliArgs
  | [], acc => .ok acc
  | "--input-dir" :: v :: rest, acc =>
      parseArgsLoop rest { acc with input_dir := pathOfString v }
  | "--output-dir" :: v :: rest, acc =>
      parseArgsLoop rest { acc with output_dir := pathOfString v }
  | "--log-level" :: v :: rest, acc =>
      if v ∈ levelChoices then parseArgsLoop rest { acc with log_level := v }
      else .error ("argument --log-level: invalid choice: " ++ v)
  | "--log-to-console" :: rest, acc =>
      parseArgsLoop rest { acc with log_to_console := true }
  | ["--input-dir"], _ => .error "argument --input-dir: expected one argument"
  | ["--output-dir"], _ => .error "argument --output-dir: expected one argument"
  | ["--log-level"], _ => .error "argument --log-level: expected one argument"
  | tok :: _, _ => .error ("unrecognized arguments: " ++ tok)

def parse_args (args : List String) : Except String CliArgs :=
  parseArgsLoop args defaultArgs

/-! ## `configure_logging` (src/main.py lines 31-52) and the world

The world holds the filesystem facts and external oracles the run
depends on: input directory existence and entries, output directory
state, whether `mkdir`/opening `app.log` raise, writability, and the
decode oracle per document name.
-/

structure World where
  inputDirExists : Bool
  inputEntries : List String
  outputDirExists : Bool
  mkdirFailure : Bool
  logOpenFailure : Bool
  outputWritable : Bool
  decode : String → DecodeOutcome
  conv : ConvState

/-- Model of `output_dir.mkdir(parents=True, exist_ok=True)`: succeeds silently if
the directory already exists; otherwise raises when creation fails
(permission denied, or the path exists as a non-directory). -/
def mkdirOutput (w : World) : Except String World :=
  if w.outputDirExists then .ok w
  else if w.mkdirFailure then .error "mkdir raised"
  else .ok { w with outputDirExists := true }

/-- Value of a `logging`-module attribute as `basicConfig` sees it: a
level integer, a string (`BASIC_FORMAT`), or some other object
(`_STYLES`, a dict). -/
inductive PyValue
  | intV (n : Nat)
  | strV (s : String)
  | dictV
deriving DecidableEq, Repr

/-- Model of `getattr(logging, name, default)` over every attribute of
the `logging` module reachable through `log_level.upper()` — the
attributes whose names contain no lower-case letter (enumerated from the
module): the eight level constants plus `BASIC_FORMAT` and `_STYLES`. -/
def loggingModuleAttr (s : String) : Option PyValue :=
  if s = "CRITICAL" then some (.intV 50)
  else if s = "FATAL" then some (.intV 50)
  else if s = "ERROR" then some (.intV 40)
  else if s = "WARNING" then some (.intV 30)
  else if s = "WARN" then some (.intV 30)
  else if s = "INFO" then some (.intV 20)
  else if s = "DEBUG" then some (.intV 10)
  else if s = "NOTSET" then some (.intV 0)
  else if s = "BASIC_FORMAT" then some (.strV "%(levelname)s:%(name)s:%(message)s")
  else if s = "_STYLES" then some .dictV
  else none

/-- The registered level names (`logging._nameToLevel`). -/
def nameToLevel (s : String) : Option Nat :=
  if s = "CRITICAL" then some 50
  else if s = "FATAL" then some 50
  else if s = "ERROR" then some 40
  else if s = "WARN" then some 30
  else if s = "WARNING" then some 30
  else if s = "INFO" then some 20
  else if s = "DEBUG" then some 10
  else if s = "NOTSET" then some 0
  else none

/-- Model of `logging._checkLevel`, applied by `basicConfig` via
`root.setLevel(level)`: an int passes through, a string must be a
registered level name (else `ValueError`), anything else is a
`TypeError`. -/
def checkLevel : PyValue → Except String Nat
  | .intV n => .ok n
  | .strV s =>
    match nameToLevel s with
    | some n => .ok n
    | none => .error ("Unknown level: " ++ s)
  | .dictV => .error "Level not an integer or a valid string"

def strUpper (s : String) : String := String.mk (s.data.map Char.toUpper)

inductive Sink
  | fileSink
  | consoleSink
deriving DecidableEq, Repr

structure LoggingConfig where
  level : Nat
  sinks : List Sink
deriving DecidableEq, Repr

/-- Logging setup `configure_logging`: create the output directory (line 39 — may
raise), open `<output>/app.log` in append mode (creating it — may
raise), then `basicConfig` with
`level=getattr(logging, log_level.upper(), logging.INFO)`: the file sink
plus, if requested, a console sink are attached, and the level value must
pass `_checkLevel` — a non-level attribute value (`BASIC_FORMAT`,
`_STYLES`) makes `basicConfig` raise. -/
def configure_logging (w : World) (log_level : String) (log_to_console : Bool) :
    Except String LoggingConfig × World :=
  match mkdirOutput w with
  | .error e => (.error e, w)
  | .ok w1 =>
    if w1.logOpenFailure then (.error "cannot open app.log", w1)
    else
      let w2 := { w1 with conv := { w1.conv with files := addFile "app.log" w1.conv.files } }
      match checkLevel ((loggingModuleAttr (strUpper log_level)).getD (.intV 20)) with
      | .error e => (.error e, w2)
      | .ok lvl =>
        (.ok { level := lvl
               sinks := [.fileSink] ++ (if log_to_console then [.consoleSink] else []) },
         w2)

/-! ## `main` (src/main.py lines 132-171) -/

def strEndsWith (s suffix : String) : Bool := suffix.data.isSuffixOf s.data

/-- Model of `input_dir.glob("*.pdf")`: non-recursive, case-sensitive
extension match.  `pathlib.Path.glob` does match hidden (dot-prefixed)
entries, so the test is exactly a `.pdf` suffix. -/
def isPdfName (name : String) : Bool := strEndsWith name ".pdf"

def globPdfs (entries : List String) : List String := entries.filter isPdfName

/-- The per-document loop (lines 164-170): each failure is logged and
turns the eventual exit code to 1; the loop always continues. -/
def processDocs (a : CliArgs) (decode : String → DecodeOutcome) :
    List String → Nat → ConvState → Nat × ConvState
  | [], code, st => (code, st)
  | name :: rest, code, st =>
    match pdf_to_pngs (a.input_dir ++ [name]) a.output_dir (decode name) st false with
    | (.ok _, st1) => processDocs a decode rest code st1
    | (.error e, st1) => processDocs a decode rest 1 (logAt .errorLv e.msg st1)

/-- The in-sequence converter results, one per discovered document. -/
def docResults (a : CliArgs) (decode : String → DecodeOutcome) :
    List String → ConvState → List (Except PdfConversionError (List Path))
  | [], _ => []
  | name :: rest, st =>
    match pdf_to_pngs (a.input_dir ++ [name]) a.output_dir (decode name) st false with
    | (.ok ps, st1) => .ok ps :: docResults a decode rest st1
    | (.error e, st1) => .error e :: docResults a decode rest (logAt .errorLv e.msg st1)

inductive Outcome
  | exited (code : Nat)
  | usage (code : Nat)
  | crashed (msg : String)
deriving DecidableEq, Repr

def main (args : List String) (w : World) : Outcome × World :=
  match parse_args args with
  | .error _ => (.usage 2, w)
  | .ok a =>
    match configure_logging w a.log_level a.log_to_console with
    | (.error m, w1) => (.crashed m, w1)
    | (.ok _, w1) =>
      if w1.inputDirExists = false then
        (.exited 1,
         { w1 with conv := (logAt .errorLv
             ("Input directory does not exist: " ++ pathString a.input_dir) w1.conv) })
      else
        match mkdirOutput w1 with
        | .error e =>
          (.exited 1,
           { w1 with conv := (logAt .errorLv
               ("Cannot create output directory " ++ pathString a.output_dir ++ ": " ++ e)
               w1.conv) })
        | .ok w2 =>
          if w2.outputWritable = false then
            (.exited 1,
             { w2 with conv := (logAt .errorLv
                 ("Output directory is not writable: " ++ pathString a.output_dir) w2.conv) })
          else
            let pdfs := globPdfs w2.inputEntries
            if pdfs = [] then
              (.exited 0,
               { w2 with conv := (logAt .warningLv
                   ("No PDF files found in " ++ pathString a.input_dir) w2.conv) })
            else
              let r := processDocs a w2.decode pdfs 0 w2.conv
              (.exited r.1, { w2 with conv := r.2 })

/-! ## Helper lemmas about the page loop -/

/-- Output file names for pages `i, i+1, …, i+n-1`. -/
def pageNames (stem : String) (i n : Nat) : List String :=
  (List.range n).map fun t => pageName stem (i + t)

/-! ## Error accounting across the batch -/

def errCount (log : List LogRecord) : Nat :=
  (log.filter fun r => r.level == Level.errorLv).length

def errInc : Except PdfConversionError (List Path) → Nat
  | .ok _ => 0
  | .error _ => 1

/-- Number of failed documents among in-sequence converter results. -/
def countErrs (rs : List (Except PdfConversionError (List Path))) : Nat :=
  (rs.map errInc).sum

/-! ## `configure_logging` success equation -/

/-- The world after a successful logging setup: the output directory
exists and `app.log` is present. -/
def afterSetup (w : World) : World :=
  { w with outputDirExists := true
           conv := { w.conv with files := addFile "app.log" w.conv.files } }

/-! ## Run-level claims -/

/-- The page outputs present in the output directory. -/
def pngFiles (files : List String) : List String :=
  files.filter fun n => strEndsWith n ".png"

def exampleDecode : String → DecodeOutcome := fun _ => .pages []

def missingInputWorld : World :=
  { inputDirExists := false
    inputEntries := []
    outputDirExists := false
    mkdirFailure := false
    logOpenFailure := false
    outputWritable := true
    decode := exampleDecode
    conv := ⟨[], []⟩ }

def emptyInputWorld : World :=
  { inputDirExists := true
    inputEntries := ["notes.txt", "readme.md", "scan.PDF"]
    outputDirExists := false
    mkdirFailure := false
    logOpenFailure := false
    outputWritable := true
    decode := exampleDecode
    conv := ⟨[], []⟩ }

/-- The spec's concrete batch scenario: `report.pdf` decodes into two
pages, `notes.pdf` fails to decode. -/
def scenarioDecode : String → DecodeOutcome := fun name =>
  if name = "report.pdf" then .pages [none, none]
  else .failure (.malformedDoc "could not parse")

def scenarioWorld : World :=
  { inputDirExists := true
    inputEntries := ["report.pdf", "notes.pdf"]
    outputDirExists := false
    mkdirFailure := false
    logOpenFailure := false
    outputWritable := true
    decode := scenarioDecode
    conv := ⟨[], []⟩ }

def plainWorld : World :=
  { inputDirExists := true
    inputEntries := []
    outputDirExists := false
    mkdirFailure := false
    logOpenFailure := false
    outputWritable := true
    decode := exampleDecode
    conv := ⟨[], []⟩ }

/-- C6: the world in which creating the output directory raises
(permission denied, or the path exists as a regular file). -/
def badMkdirWorld : World :=
  { inputDirExists := true
    inputEntries := ["doc.pdf"]
    outputDirExists := false
    mkdirFailure := true
    logOpenFailure := false
    outputWritable := true
    decode := exampleDecode
    conv := ⟨[], []⟩ }

/-! ## Lemmas and claim theorems -/

lemma digitVal_digitChar (d : Nat) (h : d < 10) : digitVal (digitChar d) = d := by
  interval_cases d <;> rfl

lemma digitsVal_append_singleton (ds : List Char) (c : Char) :
    digitsVal (ds ++ [c]) = 10 * digitsVal ds + digitVal c := by
  simp [digitsVal, List.foldl_append]

lemma digitsVal_natDigitsAux (fuel : Nat) :
    ∀ n : Nat, n ≤ fuel → digitsVal (natDigitsAux fuel n) = n := by
  induction fuel with
  | zero =>
    intro n hn
    have : n = 0 := by omega
    subst this
    rfl
  | succ fuel ih =>
    intro n hn
    rw [natDigitsAux]
    split
    · next h =>
        simp [digitsVal, digitVal_digitChar n h]
    · next h =>
        rw [digitsVal_append_singleton,
          ih (n / 10) (by omega),
          digitVal_digitChar _ (Nat.mod_lt _ (by omega))]
        omega

lemma digitsVal_natDigits (n : Nat) : digitsVal (natDigits n) = n :=
  digitsVal_natDigitsAux n n le_rfl

lemma natRepr_injective : Function.Injective natRepr := by
  intro m n h
  have hd : natDigits m = natDigits n := congrArg String.data h
  have hm := digitsVal_natDigits m
  rw [hd, digitsVal_natDigits] at hm
  exact hm.symm

lemma pageName_inj {stem : String} {i j : Nat} (h : pageName stem i = pageName stem j) :
    i = j := by
  have hd := congrArg String.data h
  simp only [pageName, String.data_append] at hd
  have h1 := List.append_cancel_right hd
  have h2 := List.append_cancel_left h1
  exact natRepr_injective (String.ext h2)

lemma pageNames_succ (stem : String) (i n : Nat) :
    pageNames stem i (n + 1) = pageName stem i :: pageNames stem (i + 1) n := by
  simp only [pageNames, List.range_succ_eq_map, List.map_cons, List.map_map, Nat.add_zero]
  refine congrArg (pageName stem i :: ·) (congrArg (List.map · (List.range n)) ?_)
  funext t
  simp only [Function.comp_apply]
  congr 1
  omega

lemma mem_addFile {name x : String} {files : List String} :
    x ∈ addFile name files ↔ x ∈ files ∨ x = name := by
  unfold addFile
  split
  · next h =>
      exact ⟨Or.inl, fun hx => hx.elim id (fun he => he ▸ h)⟩
  · simp [List.mem_append]

lemma addFile_of_not_mem {name : String} {files : List String} (h : name ∉ files) :
    addFile name files = files ++ [name] := by
  unfold addFile
  rw [if_neg h]

/-- A run over `n` decodable pages whose names are all absent writes the
`n` files in order, logs each save, and returns the `n` paths. -/
lemma savePagesLoop_fresh_ok (stem : String) (out : Path) (n : Nat) :
    ∀ (i : Nat) (st : ConvState), (∀ t : Nat, pageName stem (i + t) ∉ st.files) →
    savePagesLoop stem out false (List.replicate n none) i st =
      (.ok ((pageNames stem i n).map fun nm => out ++ [nm]),
       { files := st.files ++ pageNames stem i n
         log := st.log ++ (pageNames stem i n).map
           fun nm => ⟨.infoLv, "Saved " ++ pathString (out ++ [nm])⟩ }) := by
  induction n with
  | zero =>
    intro i st _
    simp [savePagesLoop, pageNames]
  | succ n ih =>
    intro i st hfresh
    have h0 : pageName stem i ∉ st.files := by
      have := hfresh 0
      simpa using this
    rw [List.replicate_succ]
    simp only [savePagesLoop]
    rw [if_neg (by simp [h0])]
    have hadd : addFile (pageName stem i) st.files = st.files ++ [pageName stem i] :=
      addFile_of_not_mem h0
    have hfresh1 : ∀ t : Nat,
        pageName stem (i + 1 + t) ∉
          (logAt .infoLv ("Saved " ++ pathString (out ++ [pageName stem i]))
            { st with files := addFile (pageName stem i) st.files }).files := by
      intro t hmem
      simp only [logAt, hadd] at hmem
      rcases List.mem_append.mp hmem with hl | hr
      · have : pageName stem (i + (t + 1)) ∈ st.files := by
          have he : i + 1 + t = i + (t + 1) := by omega
          rwa [he] at hl
        exact hfresh (t + 1) this
      · have : pageName stem (i + 1 + t) = pageName stem i := by simpa using hr
        have := pageName_inj this
        omega
    rw [ih (i + 1) _ hfresh1]
    simp only [logAt, hadd, pageNames_succ, consOk, List.map_cons, List.append_assoc,
      List.cons_append, List.singleton_append, List.nil_append]

lemma consOk_eq_ok {o : Path} {p : Except PdfConversionError (List Path) × ConvState}
    {ps : List Path} {st' : ConvState} (h : consOk o p = (.ok ps, st')) :
    ∃ qs, p = (.ok qs, st') ∧ ps = o :: qs := by
  rcases p with ⟨res, st⟩
  cases res with
  | ok qs =>
    simp only [consOk, Prod.mk.injEq, Except.ok.injEq] at h
    exact ⟨qs, by simp [h.2], h.1.symm⟩
  | error e => simp [consOk] at h

/-- A loop run that returns normally leaves every file it started with in
place and ends with every page's file name present. -/
lemma savePagesLoop_ok_mem (stem : String) (out : Path) (ow : Bool)
    (saves : List (Option String)) :
    ∀ (i : Nat) (st : ConvState) (ps : List Path) (st' : ConvState),
      savePagesLoop stem out ow saves i st = (.ok ps, st') →
      (∀ x ∈ st.files, x ∈ st'.files) ∧
      (∀ t, t < saves.length → pageName stem (i + t) ∈ st'.files) := by
  induction saves with
  | nil =>
    intro i st ps st' heq
    simp only [savePagesLoop, Prod.mk.injEq] at heq
    refine ⟨fun x hx => ?_, fun t ht => by simp at ht⟩
    rw [← heq.2]
    exact hx
  | cons s rest ih =>
    intro i st ps st' heq
    cases s with
    | none =>
      simp only [savePagesLoop] at heq
      split at heq
      · next hc =>
        rcases ih (i + 1) _ ps st' heq with ⟨hsub, hmem⟩
        refine ⟨fun x hx => hsub x (by simpa [logAt] using hx), fun t ht => ?_⟩
        cases t with
        | zero => simpa using hsub (pageName stem i) (by simpa [logAt] using hc.1)
        | succ t =>
          have hres := hmem t (by simp at ht; omega)
          rwa [show i + (t + 1) = i + 1 + t by omega]
      · next hc =>
        rcases consOk_eq_ok heq with ⟨qs, hp, rfl⟩
        rcases ih (i + 1) _ qs st' hp with ⟨hsub, hmem⟩
        refine ⟨fun x hx => hsub x (by simp [logAt, mem_addFile]; exact Or.inl hx),
          fun t ht => ?_⟩
        cases t with
        | zero =>
          simpa using hsub (pageName stem i) (by simp [logAt, mem_addFile])
        | succ t =>
          have hres := hmem t (by simp at ht; omega)
          rwa [show i + (t + 1) = i + 1 + t by omega]
    | some e =>
      simp only [savePagesLoop] at heq
      split at heq
      · next hc =>
        rcases ih (i + 1) _ ps st' heq with ⟨hsub, hmem⟩
        refine ⟨fun x hx => hsub x (by simpa [logAt] using hx), fun t ht => ?_⟩
        cases t with
        | zero => simpa using hsub (pageName stem i) (by simpa [logAt] using hc.1)
        | succ t =>
          have hres := hmem t (by simp at ht; omega)
          rwa [show i + (t + 1) = i + 1 + t by omega]
      · simp at heq

/-- When every page's output name already exists and `overwrite` is
false, the loop only logs skips: nothing is written and nothing is
returned. -/
lemma savePagesLoop_all_skip (stem : String) (out : Path) (saves : List (Option String)) :
    ∀ (i : Nat) (st : ConvState),
      (∀ t, t < saves.length → pageName stem (i + t) ∈ st.files) →
      savePagesLoop stem out false saves i st =
        (.ok [], { st with log := st.log ++ ((pageNames stem i saves.length).map
            fun nm => ⟨.infoLv, "Skipping existing file: " ++ pathString (out ++ [nm])⟩) }) := by
  induction saves with
  | nil =>
    intro i st _
    simp [savePagesLoop, pageNames]
  | cons s rest ih =>
    intro i st h
    have h0 : pageName stem i ∈ st.files := by simpa using h 0 (by simp)
    simp only [savePagesLoop]
    rw [if_pos ⟨h0, trivial⟩]
    rw [ih (i + 1) _ (fun t ht => by
      have := h (t + 1) (by simp at ht ⊢; omega)
      simp only [logAt]
      rwa [show i + 1 + t = i + (t + 1) by omega])]
    simp only [logAt, List.length_cons, pageNames_succ, List.map_cons, List.append_assoc,
      List.cons_append, List.singleton_append, List.nil_append]

/-- If the first `n` pages save cleanly into fresh names and page `n+1`'s
save raises, the loop fails with the save error while the `n` files
already written remain. -/
lemma savePagesLoop_fresh_fail (stem : String) (out : Path) (emsg : String)
    (rest : List (Option String)) (n : Nat) :
    ∀ (i : Nat) (st : ConvState), (∀ t : Nat, pageName stem (i + t) ∉ st.files) →
    savePagesLoop stem out false (List.replicate n none ++ some emsg :: rest) i st =
      (.error ⟨"Failed to save " ++ pathString (out ++ [pageName stem (i + n)]), .ioFail emsg⟩,
       { files := st.files ++ pageNames stem i n
         log := st.log
           ++ ((pageNames stem i n).map
             fun nm => ⟨.infoLv, "Saved " ++ pathString (out ++ [nm])⟩)
           ++ [⟨.errorLv, "Failed to save " ++ pathString (out ++ [pageName stem (i + n)])
                ++ ": " ++ emsg⟩] }) := by
  induction n with
  | zero =>
    intro i st hfresh
    have h0 : pageName stem i ∉ st.files := by simpa using hfresh 0
    simp only [List.replicate, List.nil_append, savePagesLoop]
    rw [if_neg (by simp [h0])]
    simp [logAt, pageNames]
  | succ n ih =>
    intro i st hfresh
    have h0 : pageName stem i ∉ st.files := by simpa using hfresh 0
    rw [List.replicate_succ, List.cons_append]
    simp only [savePagesLoop]
    rw [if_neg (by simp [h0])]
    have hadd : addFile (pageName stem i) st.files = st.files ++ [pageName stem i] :=
      addFile_of_not_mem h0
    have hfresh1 : ∀ t : Nat,
        pageName stem (i + 1 + t) ∉
          (logAt .infoLv ("Saved " ++ pathString (out ++ [pageName stem i]))
            { st with files := addFile (pageName stem i) st.files }).files := by
      intro t hmem
      simp only [logAt, hadd] at hmem
      rcases List.mem_append.mp hmem with hl | hr
      · have : pageName stem (i + (t + 1)) ∈ st.files := by
          have he : i + 1 + t = i + (t + 1) := by omega
          rwa [he] at hl
        exact hfresh (t + 1) this
      · have : pageName stem (i + 1 + t) = pageName stem i := by simpa using hr
        have := pageName_inj this
        omega
    rw [ih (i + 1) _ hfresh1]
    have hidx : i + 1 + n = i + (n + 1) := by omega
    simp only [logAt, hadd, hidx, pageNames_succ, consOk, List.map_cons, List.append_assoc,
      List.cons_append, List.singleton_append, List.nil_append]

lemma errCount_append (l1 l2 : List LogRecord) :
    errCount (l1 ++ l2) = errCount l1 + errCount l2 := by
  simp [errCount, List.filter_append]

lemma errCount_info (m : String) : errCount [⟨.infoLv, m⟩] = 0 := rfl

lemma errCount_error1 (m : String) : errCount [⟨.errorLv, m⟩] = 1 := rfl

lemma errCount_warning (m : String) : errCount [⟨.warningLv, m⟩] = 0 := rfl

lemma consOk_snd (o : Path) (p : Except PdfConversionError (List Path) × ConvState) :
    (consOk o p).2 = p.2 := by
  rcases p with ⟨res, st⟩
  cases res <;> rfl

lemma errInc_consOk (o : Path) (p : Except PdfConversionError (List Path) × ConvState) :
    errInc (consOk o p).1 = errInc p.1 := by
  rcases p with ⟨res, st⟩
  cases res <;> rfl

/-- The page loop adds exactly one error record when it raises and none
when it returns. -/
lemma savePagesLoop_errCount (stem : String) (out : Path) (ow : Bool)
    (saves : List (Option String)) :
    ∀ (i : Nat) (st : ConvState),
      errCount (savePagesLoop stem out ow saves i st).2.log
        = errCount st.log + errInc (savePagesLoop stem out ow saves i st).1 := by
  induction saves with
  | nil => intro i st; simp [savePagesLoop, errInc]
  | cons s rest ih =>
    intro i st
    cases s with
    | none =>
      simp only [savePagesLoop]
      split
      · rw [ih]
        simp [logAt, errCount_append, errCount_info]
      · rw [consOk_snd, errInc_consOk, ih]
        simp [logAt, errCount_append, errCount_info]
    | some e =>
      simp only [savePagesLoop]
      split
      · rw [ih]
        simp [logAt, errCount_append, errCount_info]
      · simp [errInc, logAt, errCount_append, errCount_error1]

lemma pdf_to_pngs_errCount (p out : Path) (dec : DecodeOutcome) (st : ConvState) :
    errCount (pdf_to_pngs p out dec st false).2.log
      = errCount st.log + errInc (pdf_to_pngs p out dec st false).1 := by
  cases dec with
  | failure e => simp [pdf_to_pngs, errInc, logAt, errCount_append, errCount_error1]
  | pages saves => exact savePagesLoop_errCount _ _ _ saves 1 st

/-- Batch loop: the exit code is 1 exactly when some document failed
(else the incoming code), every document is processed, and each failure
contributes two error records (the converter's and the orchestrator's). -/
lemma processDocs_spec (a : CliArgs) (decode : String → DecodeOutcome)
    (docs : List String) :
    ∀ (code : Nat) (st : ConvState),
      (processDocs a decode docs code st).1
        = (if countErrs (docResults a decode docs st) = 0 then code else 1) ∧
      errCount (processDocs a decode docs code st).2.log
        = errCount st.log + 2 * countErrs (docResults a decode docs st) := by
  induction docs with
  | nil => intro code st; simp [processDocs, docResults, countErrs]
  | cons name rest ih =>
    intro code st
    have hec := pdf_to_pngs_errCount (a.input_dir ++ [name]) a.output_dir (decode name) st
    rcases hr : pdf_to_pngs (a.input_dir ++ [name]) a.output_dir (decode name) st false
      with ⟨res, st1⟩
    rw [hr] at hec
    simp only [processDocs, docResults, hr]
    cases res with
    | ok ps =>
      rcases ih code st1 with ⟨h1, h2⟩
      refine ⟨?_, ?_⟩
      · simpa [countErrs, errInc] using h1
      · rw [h2, hec]
        simp [countErrs, errInc]
    | error e =>
      rcases ih 1 (logAt .errorLv e.msg st1) with ⟨h1, h2⟩
      refine ⟨?_, ?_⟩
      · rw [h1]
        have : countErrs ((Except.error e : Except PdfConversionError (List Path))
            :: docResults a decode rest (logAt .errorLv e.msg st1)) ≠ 0 := by
          simp [countErrs, errInc]
        rw [if_neg this]
        split <;> rfl
      · rw [h2]
        simp only [logAt, errCount_append, errCount_error1] at *
        simp [countErrs, errInc, hec]
        omega

lemma configure_logging_ok {w : World} {lv : String} {c : Bool} {n : Nat}
    (hmkdir : w.outputDirExists = true ∨ w.mkdirFailure = false)
    (hlog : w.logOpenFailure = false)
    (hlvl : checkLevel ((loggingModuleAttr (strUpper lv)).getD (.intV 20)) = .ok n) :
    configure_logging w lv c =
      (.ok { level := n
             sinks := [.fileSink] ++ (if c then [.consoleSink] else []) },
       afterSetup w) := by
  rcases w with ⟨i, e, od, mk, lo, ow, dec, conv⟩
  simp only at hmkdir hlog
  cases od
  · rcases hmkdir with h | h
    · exact absurd h (by simp)
    · subst h
      subst hlog
      simp [configure_logging, mkdirOutput, afterSetup, hlvl]
  · subst hlog
    simp [configure_logging, mkdirOutput, afterSetup, hlvl]

/-- The accumulator invariant of argument parsing: a successful parse
only ever stores a `choices` member in `log_level`. -/
lemma parseArgsLoop_log_level_mem (args : List String) (acc : CliArgs) :
    acc.log_level ∈ levelChoices →
    ∀ a, parseArgsLoop args acc = .ok a → a.log_level ∈ levelChoices := by
  induction args, acc using parseArgsLoop.induct with
  | case1 acc =>
    intro hacc a h
    simp only [parseArgsLoop, Except.ok.injEq] at h
    rw [← h]
    exact hacc
  | case2 v rest acc ih =>
    intro hacc a h
    simp only [parseArgsLoop] at h
    exact ih hacc a h
  | case3 v rest acc ih =>
    intro hacc a h
    simp only [parseArgsLoop] at h
    exact ih hacc a h
  | case4 v rest acc hv ih =>
    intro hacc a h
    simp only [parseArgsLoop, if_pos hv] at h
    exact ih hv a h
  | case5 v rest acc hv =>
    intro hacc a h
    simp [parseArgsLoop, if_neg hv] at h
  | case6 rest acc ih =>
    intro hacc a h
    simp only [parseArgsLoop] at h
    exact ih hacc a h
  | case7 x =>
    intro hacc a h
    simp [parseArgsLoop] at h
  | case8 x =>
    intro hacc a h
    simp [parseArgsLoop] at h
  | case9 x =>
    intro hacc a h
    simp [parseArgsLoop] at h
  | case10 tok tail x h1 h2 h3 h4 h5 h6 h7 =>
    intro hacc a h
    rw [parseArgsLoop.eq_def] at h
    split at h
    · next heq => exact absurd heq (by simp)
    · next v rest heq =>
        injection heq with htok htail
        exact (h1 v rest htok htail).elim
    · next v rest heq =>
        injection heq with htok htail
        exact (h2 v rest htok htail).elim
    · next v rest heq =>
        injection heq with htok htail
        exact (h3 v rest htok htail).elim
    · next rest heq =>
        injection heq with htok htail
        exact (h4 htok).elim
    · next heq =>
        injection heq with htok htail
        exact (h5 htok htail).elim
    · next heq =>
        injection heq with htok htail
        exact (h6 htok htail).elim
    · next heq =>
        injection heq with htok htail
        exact (h7 htok htail).elim
    · simp at h

lemma parse_args_log_level {args : List String} {a : CliArgs}
    (h : parse_args args = .ok a) : a.log_level ∈ levelChoices :=
  parseArgsLoop_log_level_mem args defaultArgs (by simp [defaultArgs, levelChoices]) a h

/-- Every value argument parsing can store in `log_level` passes
`basicConfig`'s level check (upper-casing it hits the level constant of
the same name). -/
lemma checkLevel_choice {s : String} (hs : s ∈ levelChoices) :
    ∃ n, checkLevel ((loggingModuleAttr (strUpper s)).getD (.intV 20)) = .ok n := by
  simp only [levelChoices, List.mem_cons, List.mem_singleton, List.not_mem_nil, or_false] at hs
  rcases hs with rfl | rfl | rfl | rfl | rfl <;> exact ⟨_, rfl⟩

/-! ## Claim theorems -/

/-- C1: for every document with `N` decodable pages converted into an
empty output directory, `pdf_to_pngs` writes exactly the `N` files
`{stem}_page_1.png` … `{stem}_page_N.png` and returns exactly those `N`
paths, in 1-based page order. -/
theorem claim_c1 (pdf out : Path) (N : Nat) (st : ConvState)
    (hempty : st.files = []) :
    (pdf_to_pngs pdf out (.pages (List.replicate N none)) st false).1
      = .ok ((pageNames (pathStem (lastComponent pdf)) 1 N).map fun nm => out ++ [nm]) ∧
    (pdf_to_pngs pdf out (.pages (List.replicate N none)) st false).2.files
      = pageNames (pathStem (lastComponent pdf)) 1 N := by
  have h := savePagesLoop_fresh_ok (pathStem (lastComponent pdf)) out N 1 st
    (fun t => by simp [hempty])
  constructor
  · simp [pdf_to_pngs, h]
  · simp [pdf_to_pngs, h, hempty]

theorem claim_c1_witness :
    (pdf_to_pngs ["in", "doc.pdf"] ["out"] (.pages (List.replicate 2 none)) ⟨[], []⟩ false).1
      = .ok ((pageNames (pathStem (lastComponent ["in", "doc.pdf"])) 1 2).map
          fun nm => ["out"] ++ [nm]) ∧
    (pdf_to_pngs ["in", "doc.pdf"] ["out"] (.pages (List.replicate 2 none)) ⟨[], []⟩ false).2.files
      = pageNames (pathStem (lastComponent ["in", "doc.pdf"])) 1 2 :=
  claim_c1 ["in", "doc.pdf"] ["out"] 2 ⟨[], []⟩ rfl

/-- C2: a second consecutive `pdf_to_pngs` run on the same document and
output directory with `overwrite=false` (after a first run that returned
normally) writes nothing — the file set is unchanged — and returns the
empty path list: every page is skipped. -/
theorem claim_c2 (pdf out : Path) (dec : DecodeOutcome) (st : ConvState)
    (ps : List Path)
    (hfirst : (pdf_to_pngs pdf out dec st false).1 = .ok ps) :
    (pdf_to_pngs pdf out dec ((pdf_to_pngs pdf out dec st false).2) false).1 = .ok [] ∧
    (pdf_to_pngs pdf out dec ((pdf_to_pngs pdf out dec st false).2) false).2.files
      = (pdf_to_pngs pdf out dec st false).2.files := by
  cases dec with
  | failure e => simp [pdf_to_pngs] at hfirst
  | pages saves =>
    rcases hr : savePagesLoop (pathStem (lastComponent pdf)) out false saves 1 st
      with ⟨res, st1⟩
    have hres : res = .ok ps := by simpa [pdf_to_pngs, hr] using hfirst
    subst hres
    have hmem := (savePagesLoop_ok_mem (pathStem (lastComponent pdf)) out false
      saves 1 st ps st1 hr).2
    have hskip := savePagesLoop_all_skip (pathStem (lastComponent pdf)) out saves 1 st1 hmem
    constructor <;> simp [pdf_to_pngs, hr, hskip]

theorem claim_c2_witness :
    (pdf_to_pngs ["in", "doc.pdf"] ["out"] (.pages [none, none])
        ((pdf_to_pngs ["in", "doc.pdf"] ["out"] (.pages [none, none]) ⟨[], []⟩ false).2) false).1
      = .ok [] ∧
    (pdf_to_pngs ["in", "doc.pdf"] ["out"] (.pages [none, none])
        ((pdf_to_pngs ["in", "doc.pdf"] ["out"] (.pages [none, none]) ⟨[], []⟩ false).2) false).2.files
      = (pdf_to_pngs ["in", "doc.pdf"] ["out"] (.pages [none, none]) ⟨[], []⟩ false).2.files :=
  claim_c2 ["in", "doc.pdf"] ["out"] (.pages [none, none]) ⟨[], []⟩
    [["out", "doc_page_1.png"], ["out", "doc_page_2.png"]] rfl

/-- C7: on decode failure `pdf_to_pngs` raises `PdfConversionError`
wrapping the underlying cause, after logging an error that carries the
document path and the underlying reason; no file is written. -/
theorem claim_c7 (pdf out : Path) (e : DecodeError) (st : ConvState) :
    pdf_to_pngs pdf out (.failure e) st false
      = (.error ⟨"PDF conversion failed for " ++ pathString pdf, .decode e⟩,
         logAt .errorLv ("Failed to convert " ++ pathString pdf ++ ": " ++ e.message) st) ∧
    (pdf_to_pngs pdf out (.failure e) st false).2.files = st.files :=
  ⟨rfl, rfl⟩

/-- C8: when persisting page `n+1` raises an I/O error after `n` clean
saves into an empty directory, the whole operation fails immediately with
a `PdfConversionError`, and the `n` pages already written remain. -/
theorem claim_c8 (pdf out : Path) (n : Nat) (emsg : String)
    (rest : List (Option String)) (st : ConvState) (hempty : st.files = []) :
    (pdf_to_pngs pdf out (.pages (List.replicate n none ++ some emsg :: rest)) st false).1
      = .error ⟨"Failed to save "
          ++ pathString (out ++ [pageName (pathStem (lastComponent pdf)) (1 + n)]),
          .ioFail emsg⟩ ∧
    (pdf_to_pngs pdf out (.pages (List.replicate n none ++ some emsg :: rest)) st false).2.files
      = pageNames (pathStem (lastComponent pdf)) 1 n := by
  have h := savePagesLoop_fresh_fail (pathStem (lastComponent pdf)) out emsg rest n 1 st
    (fun t => by simp [hempty])
  constructor
  · simp [pdf_to_pngs, h]
  · simp [pdf_to_pngs, h, hempty]

theorem claim_c8_witness :
    (pdf_to_pngs ["in", "doc.pdf"] ["out"]
        (.pages (List.replicate 1 none ++ some "disk full" :: [none])) ⟨[], []⟩ false).1
      = .error ⟨"Failed to save "
          ++ pathString (["out"] ++ [pageName (pathStem (lastComponent ["in", "doc.pdf"])) (1 + 1)]),
          .ioFail "disk full"⟩ ∧
    (pdf_to_pngs ["in", "doc.pdf"] ["out"]
        (.pages (List.replicate 1 none ++ some "disk full" :: [none])) ⟨[], []⟩ false).2.files
      = pageNames (pathStem (lastComponent ["in", "doc.pdf"])) 1 1 :=
  claim_c8 ["in", "doc.pdf"] ["out"] 1 "disk full" [none] ⟨[], []⟩ rfl

lemma pngFiles_addFile_appLog (files : List String) :
    pngFiles (addFile "app.log" files) = pngFiles files := by
  unfold addFile
  split
  · rfl
  · simp only [pngFiles, List.filter_append]
    rw [show List.filter (fun n => strEndsWith n ".png") ["app.log"] = [] from rfl,
      List.append_nil]

lemma afterSetup_inputDirExists (w : World) :
    (afterSetup w).inputDirExists = w.inputDirExists := rfl

lemma afterSetup_outputWritable (w : World) :
    (afterSetup w).outputWritable = w.outputWritable := rfl

lemma afterSetup_inputEntries (w : World) :
    (afterSetup w).inputEntries = w.inputEntries := rfl

lemma afterSetup_decode (w : World) : (afterSetup w).decode = w.decode := rfl

lemma afterSetup_conv_log (w : World) : (afterSetup w).conv.log = w.conv.log := rfl

lemma afterSetup_conv_files (w : World) :
    (afterSetup w).conv.files = addFile "app.log" w.conv.files := rfl

/-- Once logging setup has succeeded the output directory exists, so the
`mkdir` guarded by main's try/except cannot fail. -/
lemma mkdirOutput_afterSetup (w : World) :
    mkdirOutput (afterSetup w) = .ok (afterSetup w) := rfl

/-- C4: with a valid configuration whose input directory does not exist,
`main` returns exit code 1 and writes no page output. -/
theorem claim_c4 (args : List String) (w : World) (a : CliArgs)
    (hparse : parse_args args = .ok a)
    (hmkdir : w.outputDirExists = true ∨ w.mkdirFailure = false)
    (hlog : w.logOpenFailure = false)
    (hin : w.inputDirExists = false) :
    (main args w).1 = .exited 1 ∧
    pngFiles (main args w).2.conv.files = pngFiles w.conv.files := by
  rcases checkLevel_choice (parse_args_log_level hparse) with ⟨n, hlvl⟩
  constructor
  · simp [main, hparse, configure_logging_ok hmkdir hlog hlvl, afterSetup_inputDirExists, hin]
  · simp [main, hparse, configure_logging_ok hmkdir hlog hlvl, afterSetup_inputDirExists, hin,
      logAt, afterSetup_conv_files, pngFiles_addFile_appLog]

theorem claim_c4_witness :
    (main [] missingInputWorld).1 = .exited 1 ∧
    pngFiles (main [] missingInputWorld).2.conv.files = pngFiles missingInputWorld.conv.files :=
  claim_c4 [] missingInputWorld defaultArgs rfl (Or.inr rfl) rfl rfl

/-- C9: when no input entry matches `*.pdf` (case-sensitive,
non-recursive), `main` logs a warning that no documents were found,
returns exit code 0, and performs no page writes. -/
theorem claim_c9 (args : List String) (w : World) (a : CliArgs)
    (hparse : parse_args args = .ok a)
    (hmkdir : w.outputDirExists = true ∨ w.mkdirFailure = false)
    (hlog : w.logOpenFailure = false)
    (hin : w.inputDirExists = true)
    (hwr : w.outputWritable = true)
    (hnone : globPdfs w.inputEntries = []) :
    (main args w).1 = .exited 0 ∧
    pngFiles (main args w).2.conv.files = pngFiles w.conv.files ∧
    (main args w).2.conv.log
      = w.conv.log ++ [⟨.warningLv, "No PDF files found in " ++ pathString a.input_dir⟩] := by
  rcases checkLevel_choice (parse_args_log_level hparse) with ⟨n, hlvl⟩
  refine ⟨?_, ?_, ?_⟩ <;>
    simp [main, hparse, configure_logging_ok hmkdir hlog hlvl, afterSetup_inputDirExists, hin,
      mkdirOutput_afterSetup, afterSetup_outputWritable, hwr, afterSetup_inputEntries,
      hnone, logAt, afterSetup_conv_files, afterSetup_conv_log, pngFiles_addFile_appLog]

theorem claim_c9_witness :
    (main [] emptyInputWorld).1 = .exited 0 ∧
    pngFiles (main [] emptyInputWorld).2.conv.files = pngFiles emptyInputWorld.conv.files ∧
    (main [] emptyInputWorld).2.conv.log
      = emptyInputWorld.conv.log
        ++ [⟨.warningLv, "No PDF files found in " ++ pathString defaultArgs.input_dir⟩] :=
  claim_c9 [] emptyInputWorld defaultArgs rfl (Or.inr rfl) rfl rfl rfl rfl

/-- C3: the orchestrator converts every discovered document with
`overwrite=false` in sequence; each `PdfConversionError` is logged (two
error records: the converter's and the orchestrator's) and recorded but
never aborts the remaining documents, and `main` exits 1 exactly when at
least one document failed, else 0. -/
theorem claim_c3 (args : List String) (w : World) (a : CliArgs)
    (hparse : parse_args args = .ok a)
    (hmkdir : w.outputDirExists = true ∨ w.mkdirFailure = false)
    (hlog : w.logOpenFailure = false)
    (hin : w.inputDirExists = true)
    (hwr : w.outputWritable = true) :
    (main args w).1
      = .exited (if countErrs (docResults a w.decode (globPdfs w.inputEntries)
            (afterSetup w).conv) = 0 then 0 else 1) ∧
    errCount (main args w).2.conv.log
      = errCount w.conv.log
        + 2 * countErrs (docResults a w.decode (globPdfs w.inputEntries)
            (afterSetup w).conv) := by
  rcases checkLevel_choice (parse_args_log_level hparse) with ⟨n, hlvl⟩
  by_cases hglob : globPdfs w.inputEntries = []
  · refine ⟨?_, ?_⟩ <;>
      simp [main, hparse, configure_logging_ok hmkdir hlog hlvl, afterSetup_inputDirExists, hin,
        mkdirOutput_afterSetup, afterSetup_outputWritable, hwr, afterSetup_inputEntries,
        hglob, logAt, afterSetup_conv_log, docResults, countErrs,
        errCount_append, errCount_warning]
  · rcases processDocs_spec a w.decode (globPdfs w.inputEntries) 0 (afterSetup w).conv
      with ⟨h1, h2⟩
    have hmain : main args w
        = (.exited (processDocs a w.decode (globPdfs w.inputEntries) 0 (afterSetup w).conv).1,
           { afterSetup w with
             conv := (processDocs a w.decode (globPdfs w.inputEntries) 0
               (afterSetup w).conv).2 }) := by
      simp [main, hparse, configure_logging_ok hmkdir hlog hlvl, afterSetup_inputDirExists, hin,
        mkdirOutput_afterSetup, afterSetup_outputWritable, hwr, afterSetup_inputEntries,
        afterSetup_decode, hglob]
    rw [hmain]
    refine ⟨?_, ?_⟩
    · simpa using congrArg Outcome.exited h1
    · simpa [afterSetup_conv_log] using h2

theorem claim_c3_witness :
    (main [] scenarioWorld).1
      = .exited (if countErrs (docResults defaultArgs scenarioWorld.decode
            (globPdfs scenarioWorld.inputEntries) (afterSetup scenarioWorld).conv) = 0
          then 0 else 1) ∧
    errCount (main [] scenarioWorld).2.conv.log
      = errCount scenarioWorld.conv.log
        + 2 * countErrs (docResults defaultArgs scenarioWorld.decode
            (globPdfs scenarioWorld.inputEntries) (afterSetup scenarioWorld).conv) :=
  claim_c3 [] scenarioWorld defaultArgs rfl (Or.inr rfl) rfl rfl rfl

/-- C5 counterexample: `"info"` names the INFO level case-insensitively,
yet argument parsing rejects it with a usage error — argparse `choices`
matching on the converted string value is case-sensitive. -/
theorem claim_c5_counterexample :
    strUpper "info" ∈ levelChoices ∧
    parse_args ["--log-level", "info"]
      = .error "argument --log-level: invalid choice: info" :=
  ⟨by decide, rfl⟩

/-- C5 amended: argument parsing accepts the log-level value iff it is
exactly one of the five recognized upper-case names (case-sensitive
comparison); any other value fails parsing immediately with a usage error
and nonzero exit (`SystemExit(2)`), before any logging or directory work
occurs — the world is untouched. -/
theorem claim_c5_amended (v : String) (w : World) :
    ((∃ a, parse_args ["--log-level", v] = .ok a) ↔ v ∈ levelChoices) ∧
    (∀ m, parse_args ["--log-level", v] = .error m →
      main ["--log-level", v] w = (.usage 2, w)) := by
  constructor
  · constructor
    · rintro ⟨a, ha⟩
      by_cases hv : v ∈ levelChoices
      · exact hv
      · simp [parse_args, parseArgsLoop, hv] at ha
    · intro hv
      exact ⟨{ defaultArgs with log_level := v }, by simp [parse_args, parseArgsLoop, hv]⟩
  · intro m hm
    simp [main, hm]

theorem claim_c5_amended_witness :
    main ["--log-level", "info"] plainWorld = (.usage 2, plainWorld) :=
  (claim_c5_amended "info" plainWorld).2 "argument --log-level: invalid choice: info" rfl

/-- C6: when creating the output directory fails, `main` does not return
exit code 1 with a logged error — the unconditional `mkdir` inside
`configure_logging` (line 39) raises before main's try/except (lines
150-154) can run, so the call ends in an unhandled exception and the log
gains no record (the world is unchanged). -/
theorem claim_c6_bug :
    main [] badMkdirWorld = (.crashed "mkdir raised", badMkdirWorld) := rfl

/-- C10 counterexample: `"basic_format"` upper-cases to `BASIC_FORMAT`,
which names no recognized logging level — yet `configure_logging` fails:
`getattr` returns the module's format-string attribute and
`basicConfig`'s level check raises `ValueError`, so the claimed
unconditional `fall back to INFO` is false. -/
theorem claim_c10_counterexample :
    nameToLevel (strUpper "basic_format") = none ∧
    loggingModuleAttr (strUpper "basic_format")
      = some (.strV "%(levelname)s:%(name)s:%(message)s") ∧
    (configure_logging plainWorld "basic_format" false).1
      = .error "Unknown level: %(levelname)s:%(name)s:%(message)s" :=
  ⟨rfl, rfl, rfl⟩

/-- C10 amended: for every `log_level` string whose upper-casing names no
attribute of the `logging` module at all, `configure_logging` does not
fail: it silently falls back to the INFO level (20) while still attaching
the configured file (and optional console) sinks.  (A string upper-casing
to a non-level attribute, such as `BASIC_FORMAT` or `_STYLES`, instead
makes `basicConfig` raise.) -/
theorem claim_c10_amended (w : World) (lv : String) (c : Bool)
    (hunrec : loggingModuleAttr (strUpper lv) = none)
    (hmkdir : w.outputDirExists = true ∨ w.mkdirFailure = false)
    (hlog : w.logOpenFailure = false) :
    configure_logging w lv c
      = (.ok { level := 20, sinks := [.fileSink] ++ (if c then [.consoleSink] else []) },
         afterSetup w) :=
  configure_logging_ok hmkdir hlog (by rw [hunrec]; rfl)

theorem claim_c10_amended_witness :
    configure_logging plainWorld "verbose" true
      = (.ok { level := 20, sinks := [.fileSink] ++ (if true then [.consoleSink] else []) },
         afterSetup plainWorld) :=
  claim_c10_amended plainWorld "verbose" true rfl (Or.inr rfl) rfl

end PdfToPng
